import Mathlib

/-!
Verification development for the Farcaster interaction manager
(`src/packages/client-farcaster/src/interactions.ts`).

The single orchestration file is shallowly embedded: external collaborators
(feed gateway, generation service, memory store contents returned by
`sendCast`) are parameters collected in `Env`; the orchestrator's own state
(the durable memory store written through `createMemory`, and the in-process
`lastProcessedCasts` set) is threaded explicitly as `OrchState`; observable
calls (generation, dispatch, logging) are recorded as an `Event` trace.
-/

namespace Farcaster

/-- An author profile (`Profile` in types.ts): fid, username, display name. -/
structure Profile where
  fid : Nat
  username : String
  name : String
deriving DecidableEq, Repr

/-- A processed cast (`Cast` in types.ts): hash, author fid, text, the
author's profile, optional reply target (parent hash and parent author fid),
and timestamp in milliseconds since epoch. -/
structure Cast where
  hash : String
  authorFid : Nat
  text : String
  profile : Profile
  inReplyTo : Option (String × Nat)
  timestampMs : Int
deriving DecidableEq, Repr

/-- A raw cast as returned by `neynar.fetchCastsForUser` before conversion:
hash, author fid, text, `parent_hash` / `parent_author.fid`, timestamp. -/
structure RawCast where
  hash : String
  authorFid : Nat
  text : String
  parentHash : Option String
  parentAuthorFid : Nat
  timestampMs : Int
deriving DecidableEq, Repr

/-- Generated content (`Content` in the core package): text, optional action
tag, optional `inReplyTo` memory id. -/
structure Content where
  text : String
  action : Option String := none
  inReplyTo : Option (String × String) := none
deriving DecidableEq, Repr

/-- A durable memory record: keyed by the deterministic id
`hash(agentId, post.id)`, holding roomId, userId, agentId and content. -/
structure MemoryRecord where
  id : String × String
  roomId : String
  userId : String
  agentId : String
  content : Content
deriving DecidableEq, Repr

/-- The orchestrator's mutable state: the durable memory store (append-only
list written through `runtime.messageManager.createMemory`) and the
in-process `lastProcessedCasts` set. -/
structure OrchState where
  memories : List MemoryRecord
  processed : List String
deriving DecidableEq, Repr

/-- Configuration (`farcasterConfig` plus `runtime.agentId`):
`FARCASTER_FID` (`none` when absent), `FARCASTER_POLL_INTERVAL` in seconds
(`none` when absent, default 120), `FARCASTER_DRY_RUN`, and the agent id. -/
structure FarcasterConfig where
  fid : Option Nat
  pollInterval : Option Nat
  dryRun : Bool
  agentId : String

/-- Result of looking up one target user and fetching its recent casts
(`lookupUserByUsername` + `fetchCastsForUser`); `none` models a lookup
failure, a missing user, or a fetch error (the `catch`/`continue` path). -/
structure TargetFetch where
  username : String
  fetched : Option (List RawCast)

/-- Observable events of one cycle, in program order. -/
inductive Event where
  | fetchMentions
  | gateSkip (hash : String)
  | ensureConnection (hash : String)
  | buildThread (hash : String)
  | selfSkip (hash : String)
  | emptyTextSkip (hash : String)
  | getTimeline (hash : String)
  | createMem (id : String × String)
  | genShouldRespond (hash : String)
  | genReply (hash : String)
  | dryRunLog (hash : String) (text : String)
  | sendCastCall (hash : String)
  | dispatchError (hash : String)
  | emptyResultsError (hash : String)
  | processActions (hash : String)
deriving DecidableEq, Repr

/-- External collaborators: the feed gateway's mention feed, the per-target
lookup and fetch results, profile lookup (`getProfile`), the generation
service (`generateShouldRespond` / `generateMessageResponse`, keyed by the
cast hash being handled), and `sendCast` (dispatch), which either throws
(`Except.error`) or returns the list of memories of the posted casts. -/
structure Env where
  mentions : List Cast
  targetFetches : List TargetFetch
  profiles : Nat → Profile
  shouldRespondVerdict : String → String
  generate : String → Content
  sendCast : String → Content → Except Unit (List MemoryRecord)

/-- `castUuid` (utils.ts): the deterministic memory id derived from
(agentId, cast hash); modelled as the injective pair. -/
def castUuid (agentId : String) (hash : String) : String × String :=
  (agentId, hash)

/-- `runtime.messageManager.getMemoryById`: look a record up by id. -/
def getMemoryById (memories : List MemoryRecord) (id : String × String) :
    Option MemoryRecord :=
  memories.find? fun m => decide (m.id = id)

/-- Room id for a cast: `stringToUuid(toHex(cast.hash) + "-" + agentId)`,
modelled as the seed string itself. -/
def roomIdOf (agentId : String) (cast : Cast) : String :=
  cast.hash ++ "-" ++ agentId

/-- User id for a cast author: `stringToUuid(cast.authorFid.toString())`. -/
def userIdOf (cast : Cast) : String :=
  toString cast.authorFid

/-- Modelled from the spec: `createCastMemory` (memory.ts, not among the
sources) builds the MemoryRecord for a cast. Per the spec's data model a
MemoryRecord is keyed by the deterministic id `hash(agentId, post.id)` and
holds roomId, userId, agentId and content (text, optional `inReplyTo`). -/
def createCastMemory (agentId roomId userId : String) (cast : Cast) :
    MemoryRecord :=
  { id := castUuid agentId cast.hash
    roomId := roomId
    userId := userId
    agentId := agentId
    content :=
      { text := cast.text
        action := none
        inReplyTo := cast.inReplyTo.map fun p => castUuid agentId p.1 } }

/-- The inbound memory record handleCast writes for a cast (lines 302-311). -/
def inboundMemory (cfg : FarcasterConfig) (cast : Cast) : MemoryRecord :=
  createCastMemory cfg.agentId (roomIdOf cfg.agentId cast) (userIdOf cast) cast

/-- The aggregation filter on a target user's raw casts (lines 106-124):
not already in `lastProcessedCasts`, `Date.now() - timestamp < 24h`, and
text length strictly greater than 10. `isReply` is computed for the log
line only and does not occur in the returned conjunction. -/
def validCastFilter (lastProcessedCasts : List String) (nowMs : Int)
    (cast : RawCast) : Bool :=
  let isUnprocessed := !(lastProcessedCasts.contains cast.hash)
  let isRecent := decide (nowMs - cast.timestampMs < 24 * 60 * 60 * 1000)
  isUnprocessed && isRecent && decide (10 < cast.text.length)

/-- Conversion of a surviving raw cast into a `Cast` (lines 128-142),
looking the author's profile up via `getProfile`. -/
def toCast (profiles : Nat → Profile) (rc : RawCast) : Cast :=
  { hash := rc.hash
    authorFid := rc.authorFid
    text := rc.text
    profile := profiles rc.authorFid
    inReplyTo := rc.parentHash.map fun h => (h, rc.parentAuthorFid)
    timestampMs := rc.timestampMs }

/-- One target user's entry of `castsByUser` (lines 86-158): `none` when the
lookup or fetch failed or when no cast survives the filter; otherwise the
username paired with the filtered, converted casts. -/
def buildEntry (profiles : Nat → Profile) (lastProcessedCasts : List String)
    (nowMs : Int) (tf : TargetFetch) : Option (String × List Cast) :=
  match tf.fetched with
  | none => none
  | some raw =>
      let processedCasts :=
        (raw.filter (validCastFilter lastProcessedCasts nowMs)).map (toCast profiles)
      if processedCasts.isEmpty then none
      else some (tf.username, processedCasts)

/-- Build `castsByUser` (lines 82-158): for each target user whose lookup and
fetch succeeded, filter the raw casts and convert the survivors; a user is
added only when at least one cast survives. Failures skip the user. -/
def buildCastsByUser (profiles : Nat → Profile) (fetches : List TargetFetch)
    (lastProcessedCasts : List String) (nowMs : Int) :
    List (String × List Cast) :=
  fetches.filterMap (buildEntry profiles lastProcessedCasts nowMs)

/-- One-per-user random selection (lines 160-168): for each user in map
order, pick `casts[floor(random * casts.length)]`; the random draw for the
i-th user is modelled as `rand i % casts.length`. -/
def pickPerUser (rand : Nat → Nat) : Nat → List (String × List Cast) → List Cast
  | _, [] => []
  | i, entry :: rest =>
      match entry.2[rand i % entry.2.length]? with
      | none => pickPerUser rand (i + 1) rest
      | some c => c :: pickPerUser rand (i + 1) rest

/-- The final candidate list (lines 75-172): mentions alone when no target
users are configured, otherwise mentions followed by the one-per-user
selections, in that order, with no further sorting. -/
def candidatesOf (env : Env) (rand : Nat → Nat)
    (lastProcessedCasts : List String) (nowMs : Int) : List Cast :=
  if env.targetFetches.isEmpty then env.mentions
  else
    env.mentions ++
      pickPerUser rand 0
        (buildCastsByUser env.profiles env.targetFetches lastProcessedCasts nowMs)

/-- The dispatch callback (lines 355-390): set `inReplyTo` when missing, call
`sendCast`; on success add the hash to `lastProcessedCasts`, then restore the
action tag on `results[0]` — which throws when `results` is empty, the error
being caught by the surrounding `try` — and store one memory per result.
On a `sendCast` error, the catch leaves the state untouched. -/
def dispatchCallback (cfg : FarcasterConfig) (env : Env) (st : OrchState)
    (cast : Cast) (content : Content) : OrchState × List Event :=
  let memoryId := castUuid cfg.agentId cast.hash
  let content :=
    if content.inReplyTo.isNone then { content with inReplyTo := some memoryId }
    else content
  match env.sendCast cast.hash content with
  | Except.error _ => (st, [Event.sendCastCall cast.hash, Event.dispatchError cast.hash])
  | Except.ok results =>
      let st1 : OrchState := { st with processed := st.processed ++ [cast.hash] }
      match results with
      | [] => (st1, [Event.sendCastCall cast.hash, Event.emptyResultsError cast.hash])
      | r0 :: rest =>
          let r0p : MemoryRecord :=
            { r0 with content := { r0.content with action := content.action } }
          let outbound := r0p :: rest
          ({ st1 with memories := st1.memories ++ outbound },
           Event.sendCastCall cast.hash :: outbound.map fun r => Event.createMem r.id)

/-- The generated response content with `inReplyTo` attached (line 344). -/
def responseContentOf (cfg : FarcasterConfig) (env : Env) (cast : Cast) :
    Content :=
  { env.generate cast.hash with
      inReplyTo := some (castUuid cfg.agentId cast.hash) }

/-- The response phase of `handleCast` (lines 338-401): generate, attach
`inReplyTo`, stop on empty text, stop with a log line in dry-run mode,
otherwise invoke the dispatch callback and then `processActions`. -/
def respondPhase (cfg : FarcasterConfig) (env : Env) (st1 : OrchState)
    (cast : Cast) : OrchState × List Event :=
  let responseContent := responseContentOf cfg env cast
  if responseContent.text = "" then (st1, [])
  else if cfg.dryRun then
    (st1, [Event.dryRunLog cast.hash responseContent.text])
  else
    let r := dispatchCallback cfg env st1 cast responseContent
    (r.1, r.2 ++ [Event.processActions cast.hash])

/-- `handleCast` (lines 229-402): skip self-authored casts, skip casts with
no text, build context (timeline), re-check the store and write the inbound
record when absent, invoke the should-respond classifier (verdict unused),
then run the response phase. -/
def handleCast (cfg : FarcasterConfig) (env : Env) (agent : Profile)
    (st : OrchState) (cast : Cast) : OrchState × List Event :=
  if cast.profile.fid = agent.fid then (st, [Event.selfSkip cast.hash])
  else if cast.text = "" then (st, [Event.emptyTextSkip cast.hash])
  else
    let memoryId := castUuid cfg.agentId cast.hash
    let inboundStep : OrchState × List Event :=
      match getMemoryById st.memories memoryId with
      | some _ => (st, [])
      | none =>
          ({ st with memories := st.memories ++ [inboundMemory cfg cast] },
           [Event.createMem memoryId])
    let r := respondPhase cfg env inboundStep.1 cast
    (r.1,
     Event.getTimeline cast.hash :: inboundStep.2 ++
       [Event.genShouldRespond cast.hash, Event.genReply cast.hash] ++ r.2)

/-- Per-candidate processing inside `handleInteractions` (lines 178-223):
the dedup gate looks the deterministic id up in the durable store and skips
the candidate entirely when a record exists; otherwise connection and thread
are built and `handleCast` runs. -/
def processCandidate (cfg : FarcasterConfig) (env : Env) (agent : Profile)
    (st : OrchState) (cast : Cast) : OrchState × List Event :=
  match getMemoryById st.memories (castUuid cfg.agentId cast.hash) with
  | some _ => (st, [Event.gateSkip cast.hash])
  | none =>
      let r := handleCast cfg env agent st cast
      (r.1, Event.ensureConnection cast.hash :: Event.buildThread cast.hash :: r.2)

/-- Sequential processing of the candidate list. -/
def runCandidates (cfg : FarcasterConfig) (env : Env) (agent : Profile) :
    OrchState → List Cast → OrchState × List Event
  | st, [] => (st, [])
  | st, c :: cs =>
      let r1 := processCandidate cfg env agent st c
      let r2 := runCandidates cfg env agent r1.1 cs
      (r2.1, r1.2 ++ r2.2)

/-- One poll cycle, `handleInteractions` (lines 59-227): when the configured
FID is absent or 0 the cycle returns at once, fetching nothing; otherwise
mentions are fetched, candidates aggregated, and each candidate processed. -/
def handleInteractions (cfg : FarcasterConfig) (env : Env) (rand : Nat → Nat)
    (nowMs : Int) (st : OrchState) : OrchState × List Event :=
  let agentFid := cfg.fid.getD 0
  if agentFid = 0 then (st, [])
  else
    let candidates := candidatesOf env rand st.processed nowMs
    let agent := env.profiles agentFid
    let r := runCandidates cfg env agent st candidates
    (r.1, Event.fetchMentions :: r.2)

/-- The rescheduling delay in milliseconds:
`Number(FARCASTER_POLL_INTERVAL ?? 120) * 1000`. -/
def pollIntervalMs (cfg : FarcasterConfig) : Nat :=
  cfg.pollInterval.getD 120 * 1000

/-- `handleInteractionsLoop` inside `start` (lines 36-53), run for `n`
iterations starting at iteration index `k`: each iteration either completes
a cycle or throws (`fails k`, the error being logged and swallowed by the
`catch`; a throwing cycle is modelled as leaving the state unchanged), and
in both cases `setTimeout` schedules the next run after `pollIntervalMs`.
Returns the final state and the list of scheduled delays. -/
def handleInteractionsLoop (cfg : FarcasterConfig) (env : Env)
    (rand : Nat → Nat) (fails : Nat → Bool) (nows : Nat → Int) :
    Nat → Nat → OrchState → OrchState × List Nat
  | _, 0, st => (st, [])
  | k, n + 1, st =>
      let st1 := if fails k then st
                 else (handleInteractions cfg env rand (nows k) st).1
      let r := handleInteractionsLoop cfg env rand fails nows (k + 1) n st1
      (r.1, pollIntervalMs cfg :: r.2)

/-- Number of records in the store carrying a given id. -/
def countId (memories : List MemoryRecord) (id : String × String) : Nat :=
  memories.countP fun m => decide (m.id = id)

/-- Number of occurrences of an event in a trace. -/
def countEvent (evs : List Event) (e : Event) : Nat :=
  evs.countP fun x => decide (x = e)

/-! ### Concrete instances used by witnesses and counterexamples -/

/-- A concrete configuration: fid 1, default interval, dry-run off. -/
def exCfg : FarcasterConfig :=
  { fid := some 1, pollInterval := none, dryRun := false, agentId := "agent" }

/-- The same configuration with the dry-run flag enabled. -/
def exCfgDry : FarcasterConfig := { exCfg with dryRun := true }

/-- The agent's own profile. -/
def exAgent : Profile := { fid := 1, username := "bot", name := "Bot" }

/-- A distinct author's profile. -/
def exAuthor : Profile := { fid := 2, username := "alice", name := "Alice" }

/-- A candidate cast by the distinct author. -/
def exCast : Cast :=
  { hash := "h1", authorFid := 2, text := "hello there world",
    profile := exAuthor, inReplyTo := none, timestampMs := 0 }

/-- A cast authored by the agent itself. -/
def exSelfCast : Cast := { exCast with hash := "h2", profile := exAgent }

/-- The empty orchestrator state. -/
def exSt : OrchState := { memories := [], processed := [] }

/-- An outbound memory produced by `sendCast`, without an action tag. -/
def exOutRec (h : String) : MemoryRecord :=
  { id := ("agent", h), roomId := "r", userId := "u", agentId := "agent",
    content := { text := "part", action := none, inReplyTo := none } }

/-- A base environment: one mention, no target users, generation returns a
nonempty reply tagged with an action, dispatch succeeds with one record. -/
def exEnv : Env :=
  { mentions := [exCast], targetFetches := [],
    profiles := fun f => if f = 1 then exAgent else exAuthor,
    shouldRespondVerdict := fun _ => "RESPOND",
    generate := fun _ => { text := "a reply", action := some "LIKE", inReplyTo := none },
    sendCast := fun _ _ => Except.ok [exOutRec "o1"] }

/-- Environment whose dispatch always throws. -/
def exEnvFail : Env := { exEnv with sendCast := fun _ _ => Except.error () }

/-- Environment whose dispatch succeeds but returns no records. -/
def exEnvNil : Env := { exEnv with sendCast := fun _ _ => Except.ok [] }

/-- Environment whose dispatch fans out into two records. -/
def exEnvTwo : Env :=
  { exEnv with sendCast := fun _ _ => Except.ok [exOutRec "o1", exOutRec "o2"] }

/-- Environment whose generation produces empty text. -/
def exEnvGenEmpty : Env :=
  { exEnv with generate := fun _ => { text := "", action := none, inReplyTo := none } }

/-! ### Helper lemmas about the store and the orchestration steps -/

theorem getMemoryById_append_of_none (a b : List MemoryRecord)
    (id : String × String) (h : getMemoryById a id = none) :
    getMemoryById (a ++ b) id = getMemoryById b id := by
  unfold getMemoryById at *
  rw [List.find?_append, h, Option.none_or]

theorem getMemoryById_cons_of_id (m : MemoryRecord) (rest : List MemoryRecord)
    (id : String × String) (hm : m.id = id) :
    getMemoryById (m :: rest) id = some m := by
  unfold getMemoryById
  exact List.find?_cons_of_pos _ (by simp [hm])

theorem countId_append (a b : List MemoryRecord) (id : String × String) :
    countId (a ++ b) id = countId a id + countId b id :=
  List.countP_append ..

theorem countId_eq_zero_of_none (mems : List MemoryRecord)
    (id : String × String) (h : getMemoryById mems id = none) :
    countId mems id = 0 := by
  unfold getMemoryById at h
  unfold countId
  rw [List.countP_eq_zero]
  intro a ha
  simpa using List.find?_eq_none.mp h a ha

theorem countId_eq_zero_of_forall (mems : List MemoryRecord)
    (id : String × String) (h : ∀ r ∈ mems, r.id ≠ id) :
    countId mems id = 0 := by
  unfold countId
  rw [List.countP_eq_zero]
  intro a ha
  simpa using h a ha

theorem countId_singleton_of_id (m : MemoryRecord) (id : String × String)
    (hm : m.id = id) : countId [m] id = 1 := by
  simp [countId, hm]

theorem inboundMemory_id (cfg : FarcasterConfig) (cast : Cast) :
    (inboundMemory cfg cast).id = castUuid cfg.agentId cast.hash := rfl

theorem responseContentOf_text (cfg : FarcasterConfig) (env : Env)
    (cast : Cast) :
    (responseContentOf cfg env cast).text = (env.generate cast.hash).text := rfl

theorem responseContentOf_action (cfg : FarcasterConfig) (env : Env)
    (cast : Cast) :
    (responseContentOf cfg env cast).action = (env.generate cast.hash).action := rfl

theorem responseContentOf_inReplyTo (cfg : FarcasterConfig) (env : Env)
    (cast : Cast) :
    (responseContentOf cfg env cast).inReplyTo
      = some (castUuid cfg.agentId cast.hash) := rfl

theorem dispatchCallback_error (cfg : FarcasterConfig) (env : Env)
    (st : OrchState) (cast : Cast) (content : Content)
    (hc : content.inReplyTo.isNone = false)
    (hsend : env.sendCast cast.hash content = Except.error ()) :
    dispatchCallback cfg env st cast content =
      (st, [Event.sendCastCall cast.hash, Event.dispatchError cast.hash]) := by
  simp [dispatchCallback, hc, hsend]

theorem dispatchCallback_ok_nil (cfg : FarcasterConfig) (env : Env)
    (st : OrchState) (cast : Cast) (content : Content)
    (hc : content.inReplyTo.isNone = false)
    (hsend : env.sendCast cast.hash content = Except.ok []) :
    dispatchCallback cfg env st cast content =
      ({ st with processed := st.processed ++ [cast.hash] },
       [Event.sendCastCall cast.hash, Event.emptyResultsError cast.hash]) := by
  simp [dispatchCallback, hc, hsend]

theorem dispatchCallback_ok_cons (cfg : FarcasterConfig) (env : Env)
    (st : OrchState) (cast : Cast) (content : Content)
    (r0 : MemoryRecord) (rest : List MemoryRecord)
    (hc : content.inReplyTo.isNone = false)
    (hsend : env.sendCast cast.hash content = Except.ok (r0 :: rest)) :
    dispatchCallback cfg env st cast content =
      ({ memories := st.memories ++
           ({ r0 with content := { r0.content with action := content.action } } :: rest),
         processed := st.processed ++ [cast.hash] },
       Event.sendCastCall cast.hash ::
         ({ r0 with content := { r0.content with action := content.action } } :: rest).map
           fun r => Event.createMem r.id) := by
  simp [dispatchCallback, hc, hsend]

theorem respondPhase_gen_empty (cfg : FarcasterConfig) (env : Env)
    (st1 : OrchState) (cast : Cast)
    (h : (env.generate cast.hash).text = "") :
    respondPhase cfg env st1 cast = (st1, []) := by
  simp [respondPhase, responseContentOf_text, h]

theorem respondPhase_dry (cfg : FarcasterConfig) (env : Env)
    (st1 : OrchState) (cast : Cast) (hdry : cfg.dryRun = true)
    (h : (env.generate cast.hash).text ≠ "") :
    respondPhase cfg env st1 cast =
      (st1, [Event.dryRunLog cast.hash (env.generate cast.hash).text]) := by
  simp [respondPhase, responseContentOf_text, h, hdry]

theorem respondPhase_dispatch (cfg : FarcasterConfig) (env : Env)
    (st1 : OrchState) (cast : Cast) (hdry : cfg.dryRun = false)
    (h : (env.generate cast.hash).text ≠ "") :
    respondPhase cfg env st1 cast =
      ((dispatchCallback cfg env st1 cast (responseContentOf cfg env cast)).1,
       (dispatchCallback cfg env st1 cast (responseContentOf cfg env cast)).2 ++
         [Event.processActions cast.hash]) := by
  simp [respondPhase, responseContentOf_text, h, hdry]

theorem handleCast_self (cfg : FarcasterConfig) (env : Env) (agent : Profile)
    (st : OrchState) (cast : Cast) (h : cast.profile.fid = agent.fid) :
    handleCast cfg env agent st cast = (st, [Event.selfSkip cast.hash]) := by
  simp [handleCast, h]

theorem handleCast_fresh (cfg : FarcasterConfig) (env : Env) (agent : Profile)
    (st : OrchState) (cast : Cast)
    (hself : cast.profile.fid ≠ agent.fid) (htext : cast.text ≠ "")
    (hfresh : getMemoryById st.memories (castUuid cfg.agentId cast.hash) = none) :
    handleCast cfg env agent st cast =
      ((respondPhase cfg env
          { st with memories := st.memories ++ [inboundMemory cfg cast] } cast).1,
       Event.getTimeline cast.hash ::
         Event.createMem (castUuid cfg.agentId cast.hash) ::
         Event.genShouldRespond cast.hash :: Event.genReply cast.hash ::
         (respondPhase cfg env
            { st with memories := st.memories ++ [inboundMemory cfg cast] } cast).2) := by
  simp [handleCast, hself, htext, hfresh]

theorem processCandidate_existing (cfg : FarcasterConfig) (env : Env)
    (agent : Profile) (st : OrchState) (cast : Cast) (m : MemoryRecord)
    (h : getMemoryById st.memories (castUuid cfg.agentId cast.hash) = some m) :
    processCandidate cfg env agent st cast = (st, [Event.gateSkip cast.hash]) := by
  simp [processCandidate, h]

theorem processCandidate_fresh (cfg : FarcasterConfig) (env : Env)
    (agent : Profile) (st : OrchState) (cast : Cast)
    (hfresh : getMemoryById st.memories (castUuid cfg.agentId cast.hash) = none) :
    processCandidate cfg env agent st cast =
      ((handleCast cfg env agent st cast).1,
       Event.ensureConnection cast.hash :: Event.buildThread cast.hash ::
         (handleCast cfg env agent st cast).2) := by
  simp [processCandidate, hfresh]

theorem validCastFilter_eq (processedSet : List String) (nowMs : Int)
    (cast : RawCast) :
    validCastFilter processedSet nowMs cast =
      ((!(processedSet.contains cast.hash)) &&
        decide (nowMs - cast.timestampMs < 86400000) &&
        decide (10 < cast.text.length)) := by
  norm_num [validCastFilter]

/-! ### Claim theorems -/

/-- C4: a tracked author's fetched post survives the aggregation filter iff
it is not in ProcessedSet, its timestamp is strictly within 24 hours of the
current time, and its text is longer than 10 characters; the reply status
(`parent_hash`) never affects the result; a post exactly 24h+1s old is
excluded, one 23h59m old (with the other conditions met) is included. -/
theorem valid_cast_filter_theorem (processedSet : List String) (nowMs : Int)
    (cast : RawCast) :
    (validCastFilter processedSet nowMs cast = true ↔
      (processedSet.contains cast.hash = false
       ∧ nowMs - cast.timestampMs < 86400000
       ∧ 10 < cast.text.length))
    ∧ (∀ (o : Option String) (fid2 : Nat),
        validCastFilter processedSet nowMs
            { cast with parentHash := o, parentAuthorFid := fid2 }
          = validCastFilter processedSet nowMs cast)
    ∧ (nowMs - cast.timestampMs = 86401000 →
        validCastFilter processedSet nowMs cast = false)
    ∧ (nowMs - cast.timestampMs = 86340000 →
        processedSet.contains cast.hash = false → 10 < cast.text.length →
        validCastFilter processedSet nowMs cast = true) := by
  refine ⟨?_, ?_, ?_, ?_⟩
  · rw [validCastFilter_eq]
    simp [Bool.and_eq_true, Bool.not_eq_true', decide_eq_true_eq, and_assoc]
  · intro o fid2
    rfl
  · intro h
    rw [validCastFilter_eq, h]
    simp [decide_eq_false (show ¬((86401000 : Int) < 86400000) by norm_num)]
  · intro h hc hl
    rw [validCastFilter_eq, h, hc]
    simp [hl]

/-- C4 witness: a 12-character unprocessed post aged exactly 24h+1s is
excluded; the same post aged 23h59m is included. -/
theorem valid_cast_filter_theorem_w :
    validCastFilter [] 86401000
      { hash := "x", authorFid := 3, text := "aaaaaaaaaaaa", parentHash := none,
        parentAuthorFid := 0, timestampMs := 0 } = false
    ∧ validCastFilter [] 86340000
      { hash := "x", authorFid := 3, text := "aaaaaaaaaaaa", parentHash := none,
        parentAuthorFid := 0, timestampMs := 0 } = true :=
  ⟨(valid_cast_filter_theorem [] 86401000
      { hash := "x", authorFid := 3, text := "aaaaaaaaaaaa", parentHash := none,
        parentAuthorFid := 0, timestampMs := 0 }).2.2.1 (by decide),
   (valid_cast_filter_theorem [] 86340000
      { hash := "x", authorFid := 3, text := "aaaaaaaaaaaa", parentHash := none,
        parentAuthorFid := 0, timestampMs := 0 }).2.2.2 (by decide) (by decide)
     (by decide)⟩

/-- C7: after each cycle, whether it completed or threw (the failure pattern
is arbitrary), the loop unconditionally schedules the next cycle after the
configured interval: over n iterations it emits exactly n scheduled delays,
each equal to (FARCASTER_POLL_INTERVAL ?? 120) * 1000 milliseconds, so no
single cycle's failure halts polling. -/
theorem scheduler_unconditional (cfg : FarcasterConfig) (env : Env)
    (rand : Nat → Nat) (fails : Nat → Bool) (nows : Nat → Int) :
    ∀ (n k : Nat) (st : OrchState),
      (handleInteractionsLoop cfg env rand fails nows k n st).2.length = n
      ∧ ∀ d ∈ (handleInteractionsLoop cfg env rand fails nows k n st).2,
          d = cfg.pollInterval.getD 120 * 1000 := by
  intro n
  induction n with
  | zero =>
      intro k st
      exact ⟨rfl, by intro d hd; cases hd⟩
  | succ m ih =>
      intro k st
      have hu : handleInteractionsLoop cfg env rand fails nows k (m + 1) st
          = ((handleInteractionsLoop cfg env rand fails nows (k + 1) m
                (if fails k then st
                 else (handleInteractions cfg env rand (nows k) st).1)).1,
             pollIntervalMs cfg ::
               (handleInteractionsLoop cfg env rand fails nows (k + 1) m
                 (if fails k then st
                  else (handleInteractions cfg env rand (nows k) st).1)).2) := rfl
      rw [hu]
      refine ⟨?_, ?_⟩
      · simpa using (ih (k + 1)
          (if fails k then st
           else (handleInteractions cfg env rand (nows k) st).1)).1
      · intro d hd
        rcases List.mem_cons.mp hd with h | h
        · simpa [pollIntervalMs] using h
        · exact (ih (k + 1)
            (if fails k then st
             else (handleInteractions cfg env rand (nows k) st).1)).2 d h

/-- C7 witness: three iterations that all throw still schedule three
follow-up cycles, and the delay drawn from the trace is the 120 s default. -/
theorem scheduler_unconditional_w :
    (handleInteractionsLoop exCfg exEnv (fun _ => 0) (fun _ => true)
        (fun _ => 0) 0 3 exSt).2.length = 3
    ∧ (120000 : Nat) = exCfg.pollInterval.getD 120 * 1000 :=
  ⟨(scheduler_unconditional exCfg exEnv (fun _ => 0) (fun _ => true)
      (fun _ => 0) 3 0 exSt).1,
   (scheduler_unconditional exCfg exEnv (fun _ => 0) (fun _ => true)
      (fun _ => 0) 1 0 exSt).2 120000 (by decide)⟩

/-- C8: a candidate authored by the agent itself terminates at the self
check: `handleCast` returns immediately, and neither the should-respond
classifier, nor reply generation, nor dispatch is invoked for it. -/
theorem self_skip_theorem (cfg : FarcasterConfig) (env : Env) (agent : Profile)
    (st : OrchState) (cast : Cast) (h : cast.profile.fid = agent.fid) :
    handleCast cfg env agent st cast = (st, [Event.selfSkip cast.hash])
    ∧ Event.genShouldRespond cast.hash ∉ (processCandidate cfg env agent st cast).2
    ∧ Event.genReply cast.hash ∉ (processCandidate cfg env agent st cast).2
    ∧ Event.sendCastCall cast.hash ∉ (processCandidate cfg env agent st cast).2 := by
  refine ⟨handleCast_self cfg env agent st cast h, ?_, ?_, ?_⟩ <;>
  · cases hg : getMemoryById st.memories (castUuid cfg.agentId cast.hash) with
    | some m => simp [processCandidate_existing cfg env agent st cast m hg]
    | none =>
        simp [processCandidate_fresh cfg env agent st cast hg,
              handleCast_self cfg env agent st cast h]

/-- C8 witness: the agent's own cast is skipped and no generation or
dispatch event appears in its trace. -/
theorem self_skip_theorem_w :
    handleCast exCfg exEnv exAgent exSt exSelfCast
        = (exSt, [Event.selfSkip "h2"])
    ∧ Event.genShouldRespond "h2" ∉ (processCandidate exCfg exEnv exAgent exSt exSelfCast).2
    ∧ Event.genReply "h2" ∉ (processCandidate exCfg exEnv exAgent exSt exSelfCast).2
    ∧ Event.sendCastCall "h2" ∉ (processCandidate exCfg exEnv exAgent exSt exSelfCast).2 :=
  self_skip_theorem exCfg exEnv exAgent exSt exSelfCast rfl

/-- C10: when the configured FID is absent or 0, a poll cycle is a complete
no-op — `handleInteractions` returns before fetching mentions, with no event
and no state change — while the loop still schedules the next cycle. -/
theorem no_fid_noop (cfg : FarcasterConfig) (env : Env) (rand : Nat → Nat)
    (nowMs : Int) (st : OrchState)
    (h : cfg.fid = none ∨ cfg.fid = some 0) :
    handleInteractions cfg env rand nowMs st = (st, [])
    ∧ ∀ (fails : Nat → Bool) (nows : Nat → Int) (k : Nat) (st2 : OrchState),
        (handleInteractionsLoop cfg env rand fails nows k 1 st2).2
          = [pollIntervalMs cfg] := by
  constructor
  · have h0 : cfg.fid.getD 0 = 0 := by rcases h with h | h <;> simp [h]
    simp [handleInteractions, h0]
  · intro fails nows k st2
    rfl

/-- `responseContentOf` always carries an `inReplyTo`, so the callback does
not rewrite the content before dispatch. -/
theorem responseContentOf_isNone (cfg : FarcasterConfig) (env : Env)
    (cast : Cast) :
    (responseContentOf cfg env cast).inReplyTo.isNone = false := rfl

/-- C6: with the dry-run flag enabled, a candidate that reaches generation
still invokes reply generation (and the would-be reply is logged whenever it
is nonempty), but dispatch is never called, ProcessedSet is not updated, and
no outbound record is written — only the inbound record is. -/
theorem dry_run_containment (cfg : FarcasterConfig) (env : Env)
    (agent : Profile) (st : OrchState) (cast : Cast)
    (hdry : cfg.dryRun = true)
    (hfresh : getMemoryById st.memories (castUuid cfg.agentId cast.hash) = none)
    (hself : cast.profile.fid ≠ agent.fid) (htext : cast.text ≠ "") :
    Event.genReply cast.hash ∈ (processCandidate cfg env agent st cast).2
    ∧ (∀ h2, Event.sendCastCall h2 ∉ (processCandidate cfg env agent st cast).2)
    ∧ (processCandidate cfg env agent st cast).1.processed = st.processed
    ∧ (processCandidate cfg env agent st cast).1.memories
        = st.memories ++ [inboundMemory cfg cast]
    ∧ ((env.generate cast.hash).text ≠ "" →
        Event.dryRunLog cast.hash (env.generate cast.hash).text
          ∈ (processCandidate cfg env agent st cast).2) := by
  rw [processCandidate_fresh cfg env agent st cast hfresh,
      handleCast_fresh cfg env agent st cast hself htext hfresh]
  by_cases hg : (env.generate cast.hash).text = ""
  · rw [respondPhase_gen_empty _ _ _ _ hg]
    refine ⟨by simp, by simp, rfl, rfl, by simp [hg]⟩
  · rw [respondPhase_dry _ _ _ _ hdry hg]
    refine ⟨by simp, by simp, rfl, rfl, by intro _; simp⟩

/-- C6 witness: in dry-run mode the example candidate is generated for and
never dispatched, leaving ProcessedSet empty. -/
theorem dry_run_containment_w :
    Event.genReply "h1" ∈ (processCandidate exCfgDry exEnv exAgent exSt exCast).2
    ∧ (∀ h2, Event.sendCastCall h2 ∉ (processCandidate exCfgDry exEnv exAgent exSt exCast).2)
    ∧ (processCandidate exCfgDry exEnv exAgent exSt exCast).1.processed = exSt.processed
    ∧ (processCandidate exCfgDry exEnv exAgent exSt exCast).1.memories
        = exSt.memories ++ [inboundMemory exCfgDry exCast]
    ∧ ((exEnv.generate "h1").text ≠ "" →
        Event.dryRunLog "h1" (exEnv.generate "h1").text
          ∈ (processCandidate exCfgDry exEnv exAgent exSt exCast).2) :=
  dry_run_containment exCfgDry exEnv exAgent exSt exCast rfl rfl
    (by decide) (by decide)

/-- C9: when dispatch succeeds but returns an empty result list, the hash
has already been added to ProcessedSet before the per-record persistence
step; restoring the action tag on the absent first result throws, the error
is caught inside the callback, and the candidate completes marked processed
in memory with zero outbound records — the only record written is the
inbound one. -/
theorem empty_results_processed (cfg : FarcasterConfig) (env : Env)
    (agent : Profile) (st : OrchState) (cast : Cast)
    (hfresh : getMemoryById st.memories (castUuid cfg.agentId cast.hash) = none)
    (hself : cast.profile.fid ≠ agent.fid) (htext : cast.text ≠ "")
    (hgen : (env.generate cast.hash).text ≠ "") (hdry : cfg.dryRun = false)
    (hsend : ∀ content, env.sendCast cast.hash content = Except.ok []) :
    (processCandidate cfg env agent st cast).1.processed
        = st.processed ++ [cast.hash]
    ∧ (processCandidate cfg env agent st cast).1.memories
        = st.memories ++ [inboundMemory cfg cast]
    ∧ Event.emptyResultsError cast.hash ∈ (processCandidate cfg env agent st cast).2
    ∧ ∀ id2, Event.createMem id2 ∈ (processCandidate cfg env agent st cast).2 →
        id2 = castUuid cfg.agentId cast.hash := by
  rw [processCandidate_fresh cfg env agent st cast hfresh,
      handleCast_fresh cfg env agent st cast hself htext hfresh,
      respondPhase_dispatch cfg env _ cast hdry hgen,
      dispatchCallback_ok_nil cfg env _ cast _
        (responseContentOf_isNone cfg env cast) (hsend _)]
  refine ⟨rfl, rfl, by simp, ?_⟩
  intro id2 h
  simp only [List.mem_cons, List.mem_append, List.mem_singleton] at h
  rcases h with h | h | h | h | h | h | h | h | h <;> simp_all

/-- C9 witness: with a dispatch returning no records the example candidate
ends marked processed while only its inbound record was stored. -/
theorem empty_results_processed_w :
    (processCandidate exCfg exEnvNil exAgent exSt exCast).1.processed
        = exSt.processed ++ ["h1"]
    ∧ (processCandidate exCfg exEnvNil exAgent exSt exCast).1.memories
        = exSt.memories ++ [inboundMemory exCfg exCast]
    ∧ Event.emptyResultsError "h1" ∈ (processCandidate exCfg exEnvNil exAgent exSt exCast).2 :=
  ⟨(empty_results_processed exCfg exEnvNil exAgent exSt exCast rfl (by decide)
      (by decide) (by decide) rfl (fun _ => rfl)).1,
   (empty_results_processed exCfg exEnvNil exAgent exSt exCast rfl (by decide)
      (by decide) (by decide) rfl (fun _ => rfl)).2.1,
   (empty_results_processed exCfg exEnvNil exAgent exSt exCast rfl (by decide)
      (by decide) (by decide) rfl (fun _ => rfl)).2.2.1⟩

/-- C1 as stated is false on the code: after a failed dispatch the inbound
record alone is enough for the dedup gate to skip the post on the next
cycle, so generation is not attempted again. Concretely: dispatch throws in
cycle one (inbound record written, ProcessedSet untouched), and cycle two
terminates at the gate with no generation event. -/
theorem retry_after_failure_counterexample :
    Event.genReply "h1" ∈ (processCandidate exCfg exEnvFail exAgent exSt exCast).2
    ∧ (processCandidate exCfg exEnvFail exAgent exSt exCast).1.processed = []
    ∧ (getMemoryById (processCandidate exCfg exEnvFail exAgent exSt exCast).1.memories
        (castUuid "agent" "h1")).isSome = true
    ∧ (processCandidate exCfg exEnvFail exAgent
        (processCandidate exCfg exEnvFail exAgent exSt exCast).1 exCast).2
        = [Event.gateSkip "h1"]
    ∧ Event.genReply "h1" ∉ (processCandidate exCfg exEnvFail exAgent
        (processCandidate exCfg exEnvFail exAgent exSt exCast).1 exCast).2 := by
  decide

/-- C1 corrected: if dispatch fails, the inbound record exists while
ProcessedSet and outbound records do not; but on a subsequent cycle the
dedup gate finds that inbound record — its id is exactly the id the gate
checks — and skips the post before any context building or generation, so
the candidate is not retried. -/
theorem retry_after_failure_amended (cfg : FarcasterConfig) (env : Env)
    (agent : Profile) (st : OrchState) (cast : Cast)
    (hfresh : getMemoryById st.memories (castUuid cfg.agentId cast.hash) = none)
    (hself : cast.profile.fid ≠ agent.fid) (htext : cast.text ≠ "")
    (hgen : (env.generate cast.hash).text ≠ "") (hdry : cfg.dryRun = false)
    (hfail : ∀ content, env.sendCast cast.hash content = Except.error ()) :
    (processCandidate cfg env agent st cast).1.memories
        = st.memories ++ [inboundMemory cfg cast]
    ∧ (processCandidate cfg env agent st cast).1.processed = st.processed
    ∧ Event.genReply cast.hash ∈ (processCandidate cfg env agent st cast).2
    ∧ (processCandidate cfg env agent
         (processCandidate cfg env agent st cast).1 cast).2
        = [Event.gateSkip cast.hash]
    ∧ Event.genReply cast.hash ∉ (processCandidate cfg env agent
         (processCandidate cfg env agent st cast).1 cast).2 := by
  rw [processCandidate_fresh cfg env agent st cast hfresh,
      handleCast_fresh cfg env agent st cast hself htext hfresh,
      respondPhase_dispatch cfg env _ cast hdry hgen,
      dispatchCallback_error cfg env _ cast _
        (responseContentOf_isNone cfg env cast) (hfail _)]
  have hgate : getMemoryById (st.memories ++ [inboundMemory cfg cast])
      (castUuid cfg.agentId cast.hash) = some (inboundMemory cfg cast) := by
    rw [getMemoryById_append_of_none _ _ _ hfresh]
    exact getMemoryById_cons_of_id _ _ _ (inboundMemory_id cfg cast)
  refine ⟨rfl, rfl, by simp, ?_, ?_⟩
  · show (processCandidate cfg env agent
      { st with memories := st.memories ++ [inboundMemory cfg cast] } cast).2
        = [Event.gateSkip cast.hash]
    rw [processCandidate_existing cfg env agent
      { st with memories := st.memories ++ [inboundMemory cfg cast] } cast
      (inboundMemory cfg cast) hgate]
  · show Event.genReply cast.hash ∉ (processCandidate cfg env agent
      { st with memories := st.memories ++ [inboundMemory cfg cast] } cast).2
    rw [processCandidate_existing cfg env agent
      { st with memories := st.memories ++ [inboundMemory cfg cast] } cast
      (inboundMemory cfg cast) hgate]
    simp

/-- C1 witness for the corrected statement, at the concrete failing
dispatch environment. -/
theorem retry_after_failure_amended_w :
    (processCandidate exCfg exEnvFail exAgent exSt exCast).1.memories
        = exSt.memories ++ [inboundMemory exCfg exCast]
    ∧ (processCandidate exCfg exEnvFail exAgent exSt exCast).1.processed
        = exSt.processed
    ∧ Event.genReply "h1" ∈ (processCandidate exCfg exEnvFail exAgent exSt exCast).2
    ∧ (processCandidate exCfg exEnvFail exAgent
         (processCandidate exCfg exEnvFail exAgent exSt exCast).1 exCast).2
        = [Event.gateSkip "h1"]
    ∧ Event.genReply "h1" ∉ (processCandidate exCfg exEnvFail exAgent
         (processCandidate exCfg exEnvFail exAgent exSt exCast).1 exCast).2 :=
  retry_after_failure_amended exCfg exEnvFail exAgent exSt exCast rfl
    (by decide) (by decide) (by decide) rfl (fun _ => rfl)

/-- C2 as stated is false on the code: when a dispatch fans out into two
records, only `results[0]` has the action tag restored; the second record is
stored with no action even though the generated content carries one. -/
theorem outbound_action_counterexample :
    (processCandidate exCfg exEnvTwo exAgent exSt exCast).1.processed = ["h1"]
    ∧ (exEnvTwo.generate "h1").action = some "LIKE"
    ∧ (getMemoryById (processCandidate exCfg exEnvTwo exAgent exSt exCast).1.memories
        ("agent", "o2")).map (fun m => m.content.action) = some none := by
  decide

/-- C2 corrected: on dispatch success the post id is added to ProcessedSet
and one outbound record is stored per record returned by dispatch, but only
the FIRST stored record carries the action tag of the generated content;
the remaining records are stored exactly as dispatch returned them. -/
theorem outbound_action_amended (cfg : FarcasterConfig) (env : Env)
    (agent : Profile) (st : OrchState) (cast : Cast)
    (r0 : MemoryRecord) (rest : List MemoryRecord)
    (hfresh : getMemoryById st.memories (castUuid cfg.agentId cast.hash) = none)
    (hself : cast.profile.fid ≠ agent.fid) (htext : cast.text ≠ "")
    (hgen : (env.generate cast.hash).text ≠ "") (hdry : cfg.dryRun = false)
    (hsend : ∀ content, env.sendCast cast.hash content = Except.ok (r0 :: rest)) :
    (processCandidate cfg env agent st cast).1.processed
        = st.processed ++ [cast.hash]
    ∧ (processCandidate cfg env agent st cast).1.memories
        = st.memories ++ [inboundMemory cfg cast] ++
          ({ r0 with content :=
              { r0.content with action := (env.generate cast.hash).action } } :: rest) := by
  rw [processCandidate_fresh cfg env agent st cast hfresh,
      handleCast_fresh cfg env agent st cast hself htext hfresh,
      respondPhase_dispatch cfg env _ cast hdry hgen,
      dispatchCallback_ok_cons cfg env _ cast _ r0 rest
        (responseContentOf_isNone cfg env cast) (hsend _)]
  exact ⟨rfl, by simp [responseContentOf_action, List.append_assoc]⟩

/-- C2 witness for the corrected statement: with a two-record dispatch the
first stored record carries the tag and the second is stored as returned. -/
theorem outbound_action_amended_w :
    (processCandidate exCfg exEnvTwo exAgent exSt exCast).1.processed
        = exSt.processed ++ ["h1"]
    ∧ (processCandidate exCfg exEnvTwo exAgent exSt exCast).1.memories
        = exSt.memories ++ [inboundMemory exCfg exCast] ++
          ({ exOutRec "o1" with content :=
              { (exOutRec "o1").content with
                  action := (exEnvTwo.generate "h1").action } } :: [exOutRec "o2"]) :=
  outbound_action_amended exCfg exEnvTwo exAgent exSt exCast
    (exOutRec "o1") [exOutRec "o2"] rfl (by decide) (by decide) (by decide) rfl
    (fun _ => rfl)

theorem countEvent_append (a b : List Event) (e : Event) :
    countEvent (a ++ b) e = countEvent a e + countEvent b e :=
  List.countP_append ..

theorem countP_createMem_map (l : List MemoryRecord) (h : String) :
    (l.map fun r => Event.createMem r.id).countP
      (fun x => decide (x = Event.sendCastCall h)) = 0 := by
  rw [List.countP_eq_zero]
  intro x hx
  obtain ⟨r, _, rfl⟩ := List.mem_map.mp hx
  simp

/-- Shape of a fresh candidate's processing: whatever the generation output,
the dry-run flag and the dispatch outcome, the resulting store is the old
store plus the inbound record plus outbound records that never reuse the
inbound id, and dispatch is invoked at most once. -/
theorem processCandidate_fresh_shape (cfg : FarcasterConfig) (env : Env)
    (agent : Profile) (st : OrchState) (cast : Cast)
    (hfresh : getMemoryById st.memories (castUuid cfg.agentId cast.hash) = none)
    (hself : cast.profile.fid ≠ agent.fid) (htext : cast.text ≠ "")
    (hsendIds : ∀ content recs, env.sendCast cast.hash content = Except.ok recs →
        ∀ r ∈ recs, r.id ≠ castUuid cfg.agentId cast.hash) :
    ∃ outs : List MemoryRecord,
      (processCandidate cfg env agent st cast).1.memories
        = st.memories ++ inboundMemory cfg cast :: outs
      ∧ (∀ r ∈ outs, r.id ≠ castUuid cfg.agentId cast.hash)
      ∧ countEvent (processCandidate cfg env agent st cast).2
          (Event.sendCastCall cast.hash) ≤ 1 := by
  rw [processCandidate_fresh cfg env agent st cast hfresh,
      handleCast_fresh cfg env agent st cast hself htext hfresh]
  by_cases hg : (env.generate cast.hash).text = ""
  · rw [respondPhase_gen_empty _ _ _ _ hg]
    exact ⟨[], by simp, by simp, by simp [countEvent]⟩
  by_cases hdry : cfg.dryRun = true
  · rw [respondPhase_dry _ _ _ _ hdry hg]
    exact ⟨[], by simp, by simp, by simp [countEvent]⟩
  have hdryf : cfg.dryRun = false := by simpa using hdry
  rw [respondPhase_dispatch _ _ _ _ hdryf hg]
  rcases hsend : env.sendCast cast.hash (responseContentOf cfg env cast) with e | results
  · cases e
    rw [dispatchCallback_error _ _ _ _ _ (responseContentOf_isNone cfg env cast) hsend]
    exact ⟨[], by simp, by simp, by simp [countEvent]⟩
  · cases results with
    | nil =>
        rw [dispatchCallback_ok_nil _ _ _ _ _
          (responseContentOf_isNone cfg env cast) hsend]
        exact ⟨[], by simp, by simp, by simp [countEvent]⟩
    | cons r0 rest =>
        rw [dispatchCallback_ok_cons _ _ _ _ _ r0 rest
          (responseContentOf_isNone cfg env cast) hsend]
        refine ⟨{ r0 with content :=
            { r0.content with action := (responseContentOf cfg env cast).action } } :: rest,
          by simp, ?_, ?_⟩
        · intro r hr
          rcases List.mem_cons.mp hr with h | h
          · subst h
            simpa using hsendIds _ _ hsend r0 (List.mem_cons_self _ _)
          · exact hsendIds _ _ hsend r (List.mem_cons_of_mem _ h)
        · simp [countEvent, List.countP_cons, List.countP_append,
                countP_createMem_map]

/-- C3: a candidate whose deterministic id already has a record in the
durable store is skipped entirely before any context building or generation;
consequently processing the same post across two cycles sharing the store
(assuming dispatch results never reuse the inbound id, since outbound
records describe the reply casts) leaves exactly one record under the
inbound id, the second cycle terminates at the gate, and dispatch is
invoked at most once in total. -/
theorem dedup_gate_idempotency :
    (∀ (cfg : FarcasterConfig) (env : Env) (agent : Profile) (st : OrchState)
        (cast : Cast),
        (getMemoryById st.memories (castUuid cfg.agentId cast.hash)).isSome = true →
        processCandidate cfg env agent st cast = (st, [Event.gateSkip cast.hash]))
    ∧ (∀ (cfg : FarcasterConfig) (env : Env) (agent : Profile) (st : OrchState)
        (cast : Cast),
        getMemoryById st.memories (castUuid cfg.agentId cast.hash) = none →
        cast.profile.fid ≠ agent.fid → cast.text ≠ "" →
        (∀ content recs, env.sendCast cast.hash content = Except.ok recs →
            ∀ r ∈ recs, r.id ≠ castUuid cfg.agentId cast.hash) →
        countId (processCandidate cfg env agent
              (processCandidate cfg env agent st cast).1 cast).1.memories
            (castUuid cfg.agentId cast.hash) = 1
        ∧ (processCandidate cfg env agent
              (processCandidate cfg env agent st cast).1 cast).2
            = [Event.gateSkip cast.hash]
        ∧ countEvent ((processCandidate cfg env agent st cast).2 ++
              (processCandidate cfg env agent
                (processCandidate cfg env agent st cast).1 cast).2)
            (Event.sendCastCall cast.hash) ≤ 1) := by
  constructor
  · intro cfg env agent st cast h
    obtain ⟨m, hm⟩ := Option.isSome_iff_exists.mp h
    exact processCandidate_existing cfg env agent st cast m hm
  · intro cfg env agent st cast hfresh hself htext hsendIds
    obtain ⟨outs, hmem, hids, hcnt⟩ :=
      processCandidate_fresh_shape cfg env agent st cast hfresh hself htext hsendIds
    have hgate : getMemoryById
        (processCandidate cfg env agent st cast).1.memories
        (castUuid cfg.agentId cast.hash) = some (inboundMemory cfg cast) := by
      rw [hmem, getMemoryById_append_of_none _ _ _ hfresh]
      exact getMemoryById_cons_of_id _ _ _ (inboundMemory_id cfg cast)
    have hsecond := processCandidate_existing cfg env agent
      (processCandidate cfg env agent st cast).1 cast _ hgate
    refine ⟨?_, ?_, ?_⟩
    · rw [hsecond]
      show countId (processCandidate cfg env agent st cast).1.memories
        (castUuid cfg.agentId cast.hash) = 1
      rw [hmem,
          show st.memories ++ inboundMemory cfg cast :: outs
            = st.memories ++ [inboundMemory cfg cast] ++ outs by simp,
          countId_append, countId_append,
          countId_eq_zero_of_none _ _ hfresh,
          countId_singleton_of_id _ _ (inboundMemory_id cfg cast),
          countId_eq_zero_of_forall _ _ hids]
    · rw [hsecond]
    · rw [hsecond, countEvent_append]
      simpa [countEvent] using hcnt

/-- C3 witness: a candidate whose record is already stored is gate-skipped,
and a fresh candidate processed across two cycles ends with exactly one
record under its inbound id. -/
theorem dedup_gate_idempotency_w :
    processCandidate exCfg exEnv exAgent
        { memories := [inboundMemory exCfg exCast], processed := [] } exCast
      = ({ memories := [inboundMemory exCfg exCast], processed := [] },
         [Event.gateSkip "h1"])
    ∧ countId (processCandidate exCfg exEnv exAgent
          (processCandidate exCfg exEnv exAgent exSt exCast).1 exCast).1.memories
        (castUuid "agent" "h1") = 1 :=
  ⟨dedup_gate_idempotency.1 exCfg exEnv exAgent
      { memories := [inboundMemory exCfg exCast], processed := [] } exCast
      (by decide),
   (dedup_gate_idempotency.2 exCfg exEnv exAgent exSt exCast rfl (by decide)
      (by decide)
      (fun content recs hok => by
        have h2 : (Except.ok [exOutRec "o1"] : Except Unit (List MemoryRecord))
            = Except.ok recs := hok
        injection h2 with h3
        intro r hr
        rw [← h3] at hr
        rcases List.mem_singleton.mp hr with rfl
        decide)).1⟩

/-- Every entry of `castsByUser` holds at least one surviving cast. -/
theorem buildCastsByUser_entries_ne_nil (profiles : Nat → Profile)
    (fetches : List TargetFetch) (processedSet : List String) (nowMs : Int) :
    ∀ e ∈ buildCastsByUser profiles fetches processedSet nowMs, e.2 ≠ [] := by
  intro e he
  unfold buildCastsByUser at he
  rw [List.mem_filterMap] at he
  obtain ⟨tf, _, htf⟩ := he
  cases hf : tf.fetched with
  | none => simp [buildEntry, hf] at htf
  | some raw =>
      by_cases hemp :
          ((raw.filter (validCastFilter processedSet nowMs)).map
            (toCast profiles)).isEmpty = true
      · simp [buildEntry, hf, hemp] at htf
      · simp only [buildEntry, hf, if_neg hemp] at htf
        injection htf with h4
        rw [← h4]
        intro hnil
        exact hemp (by rw [List.isEmpty_iff]; exact hnil)

/-- One-per-user selection always picks a member of the user's list. -/
theorem pickPerUser_forall2 (rand : Nat → Nat)
    (entries : List (String × List Cast)) :
    ∀ i : Nat, (∀ e ∈ entries, e.2 ≠ []) →
      List.Forall₂ (fun (c : Cast) (e : String × List Cast) => c ∈ e.2)
        (pickPerUser rand i entries) entries := by
  induction entries with
  | nil => intro i _; exact List.Forall₂.nil
  | cons e rest ih =>
      intro i h
      have hne : e.2 ≠ [] := h e (List.mem_cons_self _ _)
      have hlen : 0 < e.2.length := List.length_pos.mpr hne
      have hidx : rand i % e.2.length < e.2.length := Nat.mod_lt _ hlen
      obtain ⟨c, hc⟩ : ∃ c, e.2[rand i % e.2.length]? = some c := by
        rw [List.getElem?_eq_getElem hidx]
        exact ⟨_, rfl⟩
      simp only [pickPerUser, hc]
      exact List.Forall₂.cons (List.getElem?_mem hc)
        (ih (i + 1) fun x hx => h x (List.mem_cons_of_mem _ hx))

/-- C5: for every tracked author with at least one surviving post the
aggregator selects exactly one post (the selection list is in one-to-one
positional correspondence with the author entries), each selection is a
member of that author's filtered set, and the final candidate list is
exactly the mentions followed by the selections in that order, with no
further sorting. -/
theorem aggregator_one_per_author (env : Env) (rand : Nat → Nat)
    (processedSet : List String) (nowMs : Int) :
    List.Forall₂ (fun (c : Cast) (e : String × List Cast) => c ∈ e.2)
      (pickPerUser rand 0
        (buildCastsByUser env.profiles env.targetFetches processedSet nowMs))
      (buildCastsByUser env.profiles env.targetFetches processedSet nowMs)
    ∧ (pickPerUser rand 0
        (buildCastsByUser env.profiles env.targetFetches processedSet nowMs)).length
      = (buildCastsByUser env.profiles env.targetFetches processedSet nowMs).length
    ∧ (env.targetFetches ≠ [] →
        candidatesOf env rand processedSet nowMs
          = env.mentions ++ pickPerUser rand 0
              (buildCastsByUser env.profiles env.targetFetches processedSet nowMs)) := by
  have hall := buildCastsByUser_entries_ne_nil env.profiles env.targetFetches
    processedSet nowMs
  have hf2 := pickPerUser_forall2 rand
    (buildCastsByUser env.profiles env.targetFetches processedSet nowMs) 0 hall
  refine ⟨hf2, hf2.length_eq, fun h => ?_⟩
  unfold candidatesOf
  rw [if_neg]
  simp [List.isEmpty_iff, h]

/-- A raw cast long and recent enough to survive the filter. -/
def exRaw : RawCast :=
  { hash := "t1", authorFid := 3, text := "this is long enough",
    parentHash := none, parentAuthorFid := 0, timestampMs := 0 }

/-- A target-user fetch that found one qualifying cast. -/
def exFetch : TargetFetch := { username := "carol", fetched := some [exRaw] }

/-- The base environment extended with one target user. -/
def exEnvTargets : Env := { exEnv with targetFetches := [exFetch] }

/-- C5 witness: with one target user holding one qualifying cast, the final
candidate list is the mentions followed by that user's single selection. -/
theorem aggregator_one_per_author_w :
    candidatesOf exEnvTargets (fun _ => 0) [] 1000
      = exEnvTargets.mentions ++ pickPerUser (fun _ => 0) 0
          (buildCastsByUser exEnvTargets.profiles exEnvTargets.targetFetches
            [] 1000) :=
  (aggregator_one_per_author exEnvTargets (fun _ => 0) [] 1000).2.2
    (by simp [exEnvTargets])

/-- C10 witness: with no FID configured the cycle leaves the state alone and
produces no event, and one loop iteration still schedules a next cycle. -/
theorem no_fid_noop_w :
    handleInteractions { exCfg with fid := none } exEnv (fun _ => 0) 0 exSt
        = (exSt, [])
    ∧ (handleInteractionsLoop { exCfg with fid := none } exEnv (fun _ => 0)
        (fun _ => false) (fun _ => 0) 0 1 exSt).2
          = [pollIntervalMs { exCfg with fid := none }] :=
  ⟨(no_fid_noop { exCfg with fid := none } exEnv (fun _ => 0) 0 exSt (Or.inl rfl)).1,
   (no_fid_noop { exCfg with fid := none } exEnv (fun _ => 0) 0 exSt (Or.inl rfl)).2
     (fun _ => false) (fun _ => 0) 0 exSt⟩

end Farcaster
